import Mathlib

/-!
# Git-Alpha-Engine: verification of the analytics core

A shallow embedding of the numeric core of the Git-Alpha-Engine backend
(`backend/app/utils/technical_indicators.py` and the services
`symbol_analytics_service.py`, `ml_features_service.py`, `ml_model_service.py`,
`ml_training_data_service.py`) together with proofs about it.

Modelling conventions:
* Python `float` values are modelled as exact rationals (`ℚ`).
* Python `round(x, d)` is modelled by `pyRound d x`, rounding half up
  (`round` from Mathlib).  Python rounds half to even, but no statement
  proved below depends on the direction of a tie.
* A fallible computation (one that can raise `ZeroDivisionError`) is
  modelled in the `Except String` monad via `pydiv`.
* Python truthiness of an optional float (`if x:` where `x` is `None` or a
  float) is modelled by `truthy`: `None` and `0.0` are falsy.
* `math.sqrt` / `statistics.stdev` produce irrational values, so functions
  using them take the square-root operation as an explicit parameter
  `sqrtf : ℚ → ℚ`; theorems constrain `sqrtf` only at the (rational)
  points where it is actually evaluated.
-/

/-- Python's `round(x, ndigits)` on a rational, rounding half up. -/
def pyRound (ndigits : ℕ) (x : ℚ) : ℚ :=
  (round (x * 10 ^ ndigits) : ℚ) / 10 ^ ndigits

/-- `statistics.mean` (division by zero yields the junk value `0`;
every use below is on a nonempty list). -/
def mean (xs : List ℚ) : ℚ := xs.sum / xs.length

/-- The Python slice `xs[-n:]` for `n ≥ 1` (the last `n` elements,
or all of them when `n ≥ len(xs)`). -/
def lastSlice {α : Type} (n : ℕ) (xs : List α) : List α :=
  xs.drop (xs.length - n)

/-- The Python element access `xs[-k]` for `1 ≤ k ≤ len(xs)`. -/
def negIdx (xs : List ℚ) (k : ℕ) : ℚ := xs.getD (xs.length - k) 0

/-- Truthiness of an optional float: `None` and `0.0` are falsy. -/
def truthy (o : Option ℚ) : Bool :=
  match o with
  | none => false
  | some v => v != 0

/-- Checked division: Python `a / b`, raising `ZeroDivisionError` on `b = 0`. -/
def pydiv (a b : ℚ) : Except String ℚ :=
  if b = 0 then .error "ZeroDivisionError" else .ok (a / b)

/-- `deltas = [prices[i] - prices[i-1] for i in range(1, len(prices))]`
(from `calculate_rsi`). -/
def deltasOf (prices : List ℚ) : List ℚ :=
  List.zipWith (fun a b => a - b) (prices.drop 1) prices

/-- `gains = [d if d > 0 else 0 for d in deltas]` (from `calculate_rsi`). -/
def gainsOf (prices : List ℚ) : List ℚ :=
  (deltasOf prices).map (fun d => if 0 < d then d else 0)

/-- `losses = [-d if d < 0 else 0 for d in deltas]` (from `calculate_rsi`). -/
def lossesOf (prices : List ℚ) : List ℚ :=
  (deltasOf prices).map (fun d => if d < 0 then -d else 0)

/-- `calculate_rsi` from `technical_indicators.py`. -/
def calculate_rsi (prices : List ℚ) (period : ℕ := 14) : Option ℚ :=
  if prices.length < period + 1 then none
  else
    let avg_gain := (lastSlice period (gainsOf prices)).sum / period
    let avg_loss := (lastSlice period (lossesOf prices)).sum / period
    if avg_loss = 0 then some 100
    else
      let rs := avg_gain / avg_loss
      let rsi := 100 - 100 / (1 + rs)
      some (pyRound 2 rsi)

/-- `calculate_sma` from `technical_indicators.py`. -/
def calculate_sma (prices : List ℚ) (period : ℕ) : Option ℚ :=
  if prices.length < period then none
  else some (pyRound 2 (mean (lastSlice period prices)))

/-- `calculate_ema` from `technical_indicators.py`: seed with the SMA of the
first `period` prices, then fold the EMA recurrence over the rest. -/
def calculate_ema (prices : List ℚ) (period : ℕ) : Option ℚ :=
  if prices.length < period then none
  else
    let multiplier : ℚ := 2 / (period + 1)
    let seed := mean (prices.take period)
    let ema := (prices.drop period).foldl
      (fun ema price => price * multiplier + ema * (1 - multiplier)) seed
    some (pyRound 2 ema)

/-- The dictionary returned by `calculate_macd`. -/
structure MACD where
  macd_line : ℚ
  signal_line : ℚ
  histogram : ℚ
  deriving Repr, DecidableEq

/-- `calculate_macd` from `technical_indicators.py`: the signal line is the
simplified approximation `macd_line * 0.8`. -/
def calculate_macd (prices : List ℚ) : Option MACD :=
  if prices.length < 26 then none
  else
    match calculate_ema prices 12, calculate_ema prices 26 with
    | some ema_12, some ema_26 =>
      let macd_line := ema_12 - ema_26
      let signal_line := macd_line * (8 / 10)
      let histogram := macd_line - signal_line
      some ⟨pyRound 2 macd_line, pyRound 2 signal_line, pyRound 2 histogram⟩
    | _, _ => none

/-- The sample variance `Σ (x - mean)² / (n - 1)` underlying
`statistics.stdev` (whose value is `sqrt` of this). -/
def variance_sample (xs : List ℚ) : ℚ :=
  (xs.map (fun x => (x - mean xs) ^ 2)).sum / ((xs.length : ℚ) - 1)

/-- The dictionary returned by `calculate_bollinger_bands`. -/
structure BollingerBands where
  upper : ℚ
  middle : ℚ
  lower : ℚ
  deriving Repr, DecidableEq

/-- `calculate_bollinger_bands` from `technical_indicators.py`;
`sqrtf` stands for the square root used by `statistics.stdev`. -/
def calculate_bollinger_bands (sqrtf : ℚ → ℚ) (prices : List ℚ)
    (period : ℕ := 20) (std_dev : ℚ := 2) : Option BollingerBands :=
  if prices.length < period then none
  else
    let recent_prices := lastSlice period prices
    let middle_band := mean recent_prices
    let std := sqrtf (variance_sample recent_prices)
    let upper_band := middle_band + std_dev * std
    let lower_band := middle_band - std_dev * std
    some ⟨pyRound 2 upper_band, pyRound 2 middle_band, pyRound 2 lower_band⟩

/-- An OHLCV candle (only the keys read by the analytics code). -/
structure Candle where
  high : ℚ
  low : ℚ
  close : ℚ
  volume : ℚ
  deriving Repr, DecidableEq

/-- `analyze_price_volume_correlation` from `technical_indicators.py`:
pairs are `(candles[i], candles[i-1])` for `i = 1 .. len-1`. -/
def analyze_price_volume_correlation (candles : List Candle) : String :=
  if candles.length < 3 then "NEUTRAL"
  else
    let avg_vol := mean (candles.map (·.volume))
    let pairs := List.zip (candles.drop 1) candles
    let confirming := (pairs.filter (fun p =>
      let price_up := p.1.close > p.2.close
      let high_volume := p.1.volume > avg_vol
      (price_up && high_volume) || (!price_up && !high_volume))).length
    let diverging := (pairs.filter (fun p =>
      let price_up := p.1.close > p.2.close
      let high_volume := p.1.volume > avg_vol
      (price_up && !high_volume) || (!price_up && high_volume))).length
    if (confirming : ℚ) > (diverging : ℚ) * (15 / 10) then "CONFIRMATORY"
    else if (diverging : ℚ) > (confirming : ℚ) * (15 / 10) then "DIVERGENT"
    else "NEUTRAL"

/-- The On-Balance-Volume loop of `analyze_volume`. -/
def obvOf (candles : List Candle) : ℚ :=
  (List.zip (candles.drop 1) candles).foldl
    (fun obv p =>
      if p.1.close > p.2.close then obv + p.1.volume
      else if p.1.close < p.2.close then obv - p.1.volume
      else obv) 0

/-- The dictionary returned by `analyze_volume`. -/
structure VolumeData where
  avg_volume : ℚ
  current_volume : ℚ
  volume_ratio : ℚ
  trend : String
  obv : ℚ
  price_volume_correlation : String
  deriving Repr, DecidableEq

/-- `analyze_volume` from `technical_indicators.py`. -/
def analyze_volume (candles : List Candle) (period : ℕ := 20) : VolumeData :=
  if candles.isEmpty || candles.length < period then
    ⟨0, 0, 1, "STABLE", 0, "NEUTRAL"⟩
  else
    let volumes := candles.map (·.volume)
    let current_volume := volumes.getLastD 0
    let avg_volume :=
      if period ≤ volumes.length then mean (lastSlice period volumes)
      else mean volumes
    let volume_ratio := if 0 < avg_volume then current_volume / avg_volume else 1
    let volume_trend :=
      if 10 ≤ volumes.length then
        let recent_avg := mean (lastSlice 5 volumes)
        let older_avg :=
          if 15 ≤ volumes.length then mean ((lastSlice 15 volumes).take 10)
          else avg_volume
        if recent_avg > older_avg * (12 / 10) then "INCREASING"
        else if recent_avg < older_avg * (8 / 10) then "DECREASING"
        else "STABLE"
      else "STABLE"
    let obv := obvOf candles
    let correlation := analyze_price_volume_correlation
      (if 10 ≤ candles.length then lastSlice 10 candles else candles)
    ⟨pyRound 0 avg_volume, current_volume, pyRound 2 volume_ratio,
      volume_trend, obv, correlation⟩

/-- `get_volume_signal_adjustment` from `technical_indicators.py`, with the
branch structure exactly as written in the source (`if ratio > 1.5` first,
then `elif ratio > 2.0`, then `elif ratio < 0.7`). -/
def get_volume_signal_adjustment (volume_data : VolumeData)
    (price_trend : String) : ℤ :=
  let adjustment : ℤ := 0
  let adjustment :=
    if volume_data.volume_ratio > 15 / 10 then adjustment + 1
    else if volume_data.volume_ratio > 2 then adjustment + 2
    else if volume_data.volume_ratio < 7 / 10 then adjustment - 1
    else adjustment
  let adjustment :=
    if volume_data.price_volume_correlation = "CONFIRMATORY" then
      if price_trend = "BULLISH" then adjustment + 1
      else if price_trend = "BEARISH" then adjustment - 1
      else adjustment
    else if volume_data.price_volume_correlation = "DIVERGENT" then
      adjustment - 1
    else adjustment
  let adjustment :=
    if volume_data.obv > 0 ∧ price_trend = "BULLISH" then adjustment + 1
    else if volume_data.obv < 0 ∧ price_trend = "BEARISH" then adjustment - 1
    else adjustment
  max (-2) (min 2 adjustment)

/-- `detect_trend` from `technical_indicators.py`; `sma_200` is optional and
a value of `0.0` is falsy, exactly like the Python truthiness test. -/
def detect_trend (prices : List ℚ) (sma_20 sma_50 : ℚ) (sma_200 : Option ℚ) :
    String × String :=
  if prices.isEmpty then ("NEUTRAL", "WEAK")
  else
    let current_price := prices.getLastD 0
    let score : ℤ := 0
    let score := if current_price > sma_20 then score + 1 else score - 1
    let score := if current_price > sma_50 then score + 1 else score - 1
    let score :=
      if truthy sma_200 ∧ current_price > sma_200.getD 0 then score + 1
      else if truthy sma_200 then score - 1
      else score
    let score := if sma_20 > sma_50 then score + 1 else score - 1
    let score :=
      if truthy sma_200 ∧ sma_50 > sma_200.getD 0 then score + 1
      else if truthy sma_200 then score - 1
      else score
    if score ≥ 3 then ("BULLISH", "STRONG")
    else if score ≥ 1 then ("BULLISH", "MODERATE")
    else if score ≤ -3 then ("BEARISH", "STRONG")
    else if score ≤ -1 then ("BEARISH", "MODERATE")
    else ("NEUTRAL", "WEAK")

/-- `MLFeaturesService._calc_return`: percentage return from `days_ago`
candles ago (`0.0` when the window is unavailable); the division can raise
`ZeroDivisionError` when the old price is zero. -/
def calc_return (prices : List ℚ) (days_ago : ℕ) : Except String ℚ :=
  if prices.length ≤ days_ago then .ok 0
  else do
    let old_price := negIdx prices days_ago
    let r ← pydiv (negIdx prices 1 - old_price) old_price
    .ok (r * 100)

/-- `MLFeaturesService._detect_higher_highs`. -/
def detect_higher_highs (highs : List ℚ) : Bool :=
  if highs.length < 3 then false
  else negIdx highs 1 > negIdx highs 2 && negIdx highs 2 > negIdx highs 3

/-- `MLFeaturesService._detect_lower_lows`. -/
def detect_lower_lows (lows : List ℚ) : Bool :=
  if lows.length < 3 then false
  else negIdx lows 1 < negIdx lows 2 && negIdx lows 2 < negIdx lows 3

/-- `MLFeaturesService.extract_features`: the feature mapping is modelled as
an association list in the source's insertion order, and the result lives in
`Except String` so that a `ZeroDivisionError` raised by any of the divisions
is observable.  `sqrtf` is the square root used by `statistics.stdev`. -/
def extract_features (sqrtf : ℚ → ℚ) (candles : List Candle) :
    Except String (List (String × ℚ)) :=
  if candles.isEmpty || candles.length < 20 then .ok []
  else do
    let close_prices := candles.map (·.close)
    let high_prices := candles.map (·.high)
    let low_prices := candles.map (·.low)
    let current_price := negIdx close_prices 1
    let price_change_1d ← calc_return close_prices 1
    let price_change_5d ← calc_return close_prices 5
    let price_change_10d ← calc_return close_prices 10
    let price_change_20d ← calc_return close_prices 20
    let rsi_14 := calculate_rsi close_prices 14
    let rsi_7 := calculate_rsi close_prices 7
    let f_rsi_14 := if truthy rsi_14 then rsi_14.getD 0 else 50
    let f_rsi_7 := if truthy rsi_7 then rsi_7.getD 0 else 50
    let f_rsi_diff :=
      if truthy rsi_14 && truthy rsi_7 then rsi_14.getD 0 - rsi_7.getD 0 else 0
    let macd := calculate_macd close_prices
    let f_macd_line := match macd with | some m => m.macd_line | none => 0
    let f_macd_signal := match macd with | some m => m.signal_line | none => 0
    let f_macd_histogram := match macd with | some m => m.histogram | none => 0
    let f_macd_positive : ℚ :=
      match macd with
      | some m => if m.histogram > 0 then 1 else 0
      | none => 0
    let sma_20 := calculate_sma close_prices 20
    let sma_50 := calculate_sma close_prices 50
    let sma_200 := calculate_sma close_prices 200
    let f_sma_20 := if truthy sma_20 then sma_20.getD 0 else current_price
    let f_sma_50 := if truthy sma_50 then sma_50.getD 0 else current_price
    let f_sma_200 := if truthy sma_200 then sma_200.getD 0 else current_price
    let r20 ← pydiv current_price f_sma_20
    let price_vs_sma20 := (r20 - 1) * 100
    let r50 ← pydiv current_price f_sma_50
    let price_vs_sma50 := (r50 - 1) * 100
    let r200 ← pydiv current_price f_sma_200
    let price_vs_sma200 := (r200 - 1) * 100
    let sma20_above_sma50 : ℚ := if f_sma_20 > f_sma_50 then 1 else 0
    let sma50_above_sma200 : ℚ := if f_sma_50 > f_sma_200 then 1 else 0
    let bb := calculate_bollinger_bands sqrtf close_prices 20 2
    let bbf ← match bb with
      | some b => do
        let w ← pydiv (b.upper - b.lower) b.middle
        let bb_width := w * 100
        let pos ← pydiv (current_price - b.lower) (b.upper - b.lower)
        let bb_position := pos * 100
        let bb_squeeze : ℚ := if bb_width < 10 then 1 else 0
        pure (bb_width, bb_position, bb_squeeze)
      | none => pure ((20 : ℚ), (50 : ℚ), (0 : ℚ))
    let vol_data := analyze_volume candles 20
    let volume_ratio := vol_data.volume_ratio
    let volume_trend_inc : ℚ := if vol_data.trend = "INCREASING" then 1 else 0
    let volume_trend_dec : ℚ := if vol_data.trend = "DECREASING" then 1 else 0
    let volume_confirmatory : ℚ :=
      if vol_data.price_volume_correlation = "CONFIRMATORY" then 1 else 0
    let volume_divergent : ℚ :=
      if vol_data.price_volume_correlation = "DIVERGENT" then 1 else 0
    let volatility_20d ←
      if 20 ≤ close_prices.length then do
        let v ← pydiv (sqrtf (variance_sample (lastSlice 20 close_prices)))
          (mean (lastSlice 20 close_prices))
        pure (v * 100)
      else pure (0 : ℚ)
    let hl ← pydiv (negIdx high_prices 1 - negIdx low_prices 1)
      (negIdx close_prices 1)
    let hl_range := hl * 100
    let trend_data := detect_trend close_prices f_sma_20 f_sma_50 (some f_sma_200)
    let trend_bullish : ℚ := if trend_data.1 = "BULLISH" then 1 else 0
    let trend_bearish : ℚ := if trend_data.1 = "BEARISH" then 1 else 0
    let trend_strong : ℚ := if trend_data.2 = "STRONG" then 1 else 0
    let higher_highs : ℚ :=
      if detect_higher_highs (lastSlice 10 high_prices) then 1 else 0
    let lower_lows : ℚ :=
      if detect_lower_lows (lastSlice 10 low_prices) then 1 else 0
    .ok [
      ("price_change_1d", price_change_1d),
      ("price_change_5d", price_change_5d),
      ("price_change_10d", price_change_10d),
      ("price_change_20d", price_change_20d),
      ("rsi_14", f_rsi_14),
      ("rsi_7", f_rsi_7),
      ("rsi_diff", f_rsi_diff),
      ("macd_line", f_macd_line),
      ("macd_signal", f_macd_signal),
      ("macd_histogram", f_macd_histogram),
      ("macd_positive", f_macd_positive),
      ("sma_20", f_sma_20),
      ("sma_50", f_sma_50),
      ("sma_200", f_sma_200),
      ("price_vs_sma20", price_vs_sma20),
      ("price_vs_sma50", price_vs_sma50),
      ("price_vs_sma200", price_vs_sma200),
      ("sma20_above_sma50", sma20_above_sma50),
      ("sma50_above_sma200", sma50_above_sma200),
      ("bb_width", bbf.1),
      ("bb_position", bbf.2.1),
      ("bb_squeeze", bbf.2.2),
      ("volume_ratio", volume_ratio),
      ("volume_trend_inc", volume_trend_inc),
      ("volume_trend_dec", volume_trend_dec),
      ("volume_confirmatory", volume_confirmatory),
      ("volume_divergent", volume_divergent),
      ("volatility_20d", volatility_20d),
      ("hl_range", hl_range),
      ("trend_bullish", trend_bullish),
      ("trend_bearish", trend_bearish),
      ("trend_strong", trend_strong),
      ("higher_highs", higher_highs),
      ("lower_lows", lower_lows)
    ]

/-- `MLFeaturesService.get_feature_names`. -/
def get_feature_names : List String :=
  ["price_change_1d", "price_change_5d", "price_change_10d", "price_change_20d",
   "rsi_14", "rsi_7", "rsi_diff",
   "macd_line", "macd_signal", "macd_histogram", "macd_positive",
   "sma_20", "sma_50", "sma_200",
   "price_vs_sma20", "price_vs_sma50", "price_vs_sma200",
   "sma20_above_sma50", "sma50_above_sma200",
   "bb_width", "bb_position", "bb_squeeze",
   "volume_ratio", "volume_trend_inc", "volume_trend_dec",
   "volume_confirmatory", "volume_divergent",
   "volatility_20d", "hl_range",
   "trend_bullish", "trend_bearish", "trend_strong",
   "higher_highs", "lower_lows"]

/-- The ML prediction as consumed by the hybrid block of
`SymbolAnalyticsService._generate_signal` (its `signal` and `confidence`). -/
structure MLPrediction where
  signal : String
  confidence : ℚ
  deriving Repr, DecidableEq

/-- Signal, confidence and source as set by the hybrid block. -/
structure FusedSignal where
  signal : String
  confidence : ℚ
  source : String
  deriving Repr, DecidableEq

/-- The ML hybrid block of `SymbolAnalyticsService._generate_signal`
(`symbol_analytics_service.py`, the `Apply ML hybrid logic` step): takes the
traditional signal and confidence and an optional ML prediction, and returns
the fused signal, confidence and source.  A `none` prediction covers both an
absent `ml_prediction` and one with a falsy `signal`. -/
def hybrid_fusion (signal : String) (confidence : ℚ)
    (ml_prediction : Option MLPrediction) : FusedSignal :=
  match ml_prediction with
  | none => ⟨signal, confidence, "TRADITIONAL"⟩
  | some ml =>
    if signal = ml.signal then
      ⟨signal, min 95 ((confidence + ml.confidence) / 2 + 10), "HYBRID_AGREEMENT"⟩
    else if ml.confidence > 80 then
      ⟨ml.signal, ml.confidence, "ML_HIGH_CONFIDENCE"⟩
    else
      ⟨signal, confidence, "TRADITIONAL"⟩

/-- The dictionary returned by `MLModelService.predict`. -/
structure PredictResult where
  signal : String
  confidence : ℚ
  probability : ℚ
  source : String
  error : Option String
  deriving Repr, DecidableEq

/-- `MLModelService.predict`: `model` is the artifact held in memory and
`disk_model` the artifact `load_model` would recover from storage (each an
abstract map from the feature dict to the buy probability `P(label = 1)`);
`none`/`none` is the untrained state, where the soft-fail result is
returned. -/
def predict (model disk_model : Option (List (String × ℚ) → ℚ))
    (features : List (String × ℚ)) : PredictResult :=
  match model.orElse (fun _ => disk_model) with
  | none => ⟨"HOLD", 50, 1 / 2, "ML_NOT_TRAINED", some "Model not trained yet"⟩
  | some m =>
    let buy_probability := m features
    if buy_probability > 6 / 10 then
      ⟨"BUY", pyRound 1 (buy_probability * 100), pyRound 3 buy_probability, "ML", none⟩
    else if buy_probability < 4 / 10 then
      ⟨"SELL", pyRound 1 ((1 - buy_probability) * 100), pyRound 3 buy_probability, "ML", none⟩
    else
      ⟨"HOLD", pyRound 1 50, pyRound 3 buy_probability, "ML", none⟩

/-- The feature values read by `MLTrainingDataService._label_from_features`
(the remaining entries of the randomly generated feature dict do not
influence the label or the balancing). -/
structure TrainFeatures where
  rsi_14 : ℚ
  macd_histogram : ℚ
  price_vs_sma20 : ℚ
  sma20_above_sma50 : ℚ
  volume_ratio : ℚ
  volume_confirmatory : ℚ
  volume_divergent : ℚ
  trend_bullish : ℚ
  trend_bearish : ℚ
  trend_strong : ℚ
  higher_highs : ℚ
  lower_lows : ℚ
  deriving Repr, DecidableEq

/-- The score accumulated by `MLTrainingDataService._label_from_features`.
The `0/1`-valued feature flags are tested for Python truthiness (`≠ 0`). -/
def label_score (f : TrainFeatures) : ℤ :=
  let score : ℤ := 0
  let score :=
    if f.rsi_14 < 30 then score + 2
    else if f.rsi_14 > 70 then score - 2
    else score
  let score := if f.macd_histogram > 0 then score + 2 else score - 2
  let score :=
    if f.price_vs_sma20 > 0 ∧ f.sma20_above_sma50 ≠ 0 then score + 2
    else if f.price_vs_sma20 < 0 ∧ f.sma20_above_sma50 = 0 then score - 2
    else score
  let score :=
    if f.volume_ratio > 15 / 10 ∧ f.volume_confirmatory ≠ 0 then score + 1
    else if f.volume_ratio < 7 / 10 ∨ f.volume_divergent ≠ 0 then score - 1
    else score
  let score :=
    if f.trend_bullish ≠ 0 ∧ f.trend_strong ≠ 0 then score + 1
    else if f.trend_bearish ≠ 0 ∧ f.trend_strong ≠ 0 then score - 1
    else score
  let score := if f.higher_highs ≠ 0 then score + 1 else score
  if f.lower_lows ≠ 0 then score - 1 else score

/-- `MLTrainingDataService._label_from_features`: rule-based label, `1` for
BUY (`score ≥ 3`) and `0` otherwise. -/
def label_from_features (f : TrainFeatures) : ℕ :=
  if label_score f ≥ 3 then 1 else 0

/-- A `{features, label}` training example. -/
structure TrainingExample where
  features : TrainFeatures
  label : ℕ
  deriving Repr, DecidableEq

/-- `MLTrainingDataService.generate_synthetic_data`, with the random feature
draws made explicit: `draws` is the list of feature dicts produced by the
`num_samples` calls to `_generate_random_features`.  The final
`random.shuffle` is an in-place permutation, so the theorems below quantify
over an arbitrary permutation of this result. -/
def generate_synthetic_data (draws : List TrainFeatures) : List TrainingExample :=
  let training_data := draws.map (fun f => ⟨f, label_from_features f⟩)
  let buy_samples := training_data.filter (fun d => d.label == 1)
  let not_buy_samples := training_data.filter (fun d => d.label == 0)
  let min_class_size := min buy_samples.length not_buy_samples.length
  buy_samples.take min_class_size ++ not_buy_samples.take min_class_size

/-- Result of `SymbolAnalyticsService.analyze_symbol`.  Only the input-length
gate (the `Insufficient data for analysis` early return) is modelled; the
successful branch's report assembly is abstracted as `analytics`. -/
inductive AnalyzeResult where
  | insufficientData (min_required received : ℕ)
  | analytics
  deriving Repr, DecidableEq

/-- The input gate of `SymbolAnalyticsService.analyze_symbol`: fewer than 20
candles yield the typed insufficient-data error and nothing else. -/
def analyze_symbol (candles : List Candle) : AnalyzeResult :=
  if candles.isEmpty || candles.length < 20 then
    .insufficientData 20 (if candles.isEmpty then 0 else candles.length)
  else .analytics

/-- Result of `MLModelService.train`.  Only the training-set-size gate is
modelled; the successful branch (fitting the XGBoost model) is abstracted as
`trained`. -/
inductive TrainResult where
  | insufficientTrainingData (samples : ℕ)
  | trained
  deriving Repr, DecidableEq

/-- The input gate of `MLModelService.train`: fewer than 100 examples yield
the `success: False` insufficient-data result without training. -/
def train (training_data : List TrainingExample) : TrainResult :=
  if training_data.length < 100 then
    .insufficientTrainingData training_data.length
  else .trained

/-! ## Helper lemmas -/

theorem pyRound_zero (d : ℕ) : pyRound d 0 = 0 := by
  simp [pyRound]

theorem pyRound_mono (d : ℕ) {x y : ℚ} (h : x ≤ y) : pyRound d x ≤ pyRound d y := by
  unfold pyRound
  have hp : (0:ℚ) < 10 ^ d := by positivity
  have h1 : round (x * 10 ^ d) ≤ round (y * 10 ^ d) := by
    rw [round_eq, round_eq]
    exact Int.floor_le_floor (by nlinarith)
  exact (div_le_div_iff_of_pos_right hp).mpr (by exact_mod_cast h1)

theorem pyRound_nonneg (d : ℕ) {x : ℚ} (h : 0 ≤ x) : 0 ≤ pyRound d x := by
  have := pyRound_mono d h
  rwa [pyRound_zero] at this

theorem pyRound_nonpos (d : ℕ) {x : ℚ} (h : x ≤ 0) : pyRound d x ≤ 0 := by
  have := pyRound_mono d h
  rwa [pyRound_zero] at this

theorem pyRound_eq_self {d : ℕ} {x : ℚ} (k : ℤ) (h : x * 10 ^ d = k) :
    pyRound d x = x := by
  have hp : (10:ℚ) ^ d ≠ 0 := by positivity
  unfold pyRound
  rw [h, round_intCast, ← h, mul_div_cancel_right₀ _ hp]

theorem pyRound_pos_iff (d : ℕ) (x : ℚ) :
    0 < pyRound d x ↔ 1 / 2 ≤ x * 10 ^ d := by
  have hp : (0:ℚ) < 10 ^ d := by positivity
  unfold pyRound
  rw [lt_div_iff₀ hp, zero_mul, round_eq]
  rw [show ((0:ℚ) < (⌊x * 10 ^ d + 1 / 2⌋ : ℚ)) ↔ (0 < ⌊x * 10 ^ d + 1 / 2⌋) by
    exact_mod_cast Iff.rfl]
  constructor
  · intro h
    have := (Int.le_floor).mp h
    push_cast at this
    linarith
  · intro h
    have : (1:ℤ) ≤ ⌊x * 10 ^ d + 1 / 2⌋ := Int.le_floor.mpr (by push_cast; linarith)
    omega

theorem pyRound_neg_iff (d : ℕ) (x : ℚ) :
    pyRound d x < 0 ↔ x * 10 ^ d < -(1 / 2) := by
  have hp : (0:ℚ) < 10 ^ d := by positivity
  unfold pyRound
  rw [div_lt_iff₀ hp, zero_mul, round_eq]
  rw [show ((⌊x * 10 ^ d + 1 / 2⌋ : ℚ) < 0) ↔ (⌊x * 10 ^ d + 1 / 2⌋ < 0) by
    exact_mod_cast Iff.rfl]
  rw [Int.floor_lt]
  push_cast
  constructor <;> intro h <;> linarith

theorem mean_const {l : List ℚ} {c : ℚ} (hc : ∀ x ∈ l, x = c) (hne : l ≠ []) :
    mean l = c := by
  have hlen : (l.length : ℚ) ≠ 0 := by
    exact_mod_cast (List.length_pos.mpr hne).ne'
  unfold mean
  rw [List.sum_eq_card_nsmul l c hc, nsmul_eq_mul]
  field_simp

theorem foldl_ema_const (m c : ℚ) {l : List ℚ} (h : ∀ x ∈ l, x = c) :
    l.foldl (fun ema price => price * m + ema * (1 - m)) c = c := by
  induction l with
  | nil => rfl
  | cons a t ih =>
    have ha : a = c := h a (List.mem_cons_self a t)
    have ht : ∀ x ∈ t, x = c := fun x hx => h x (List.mem_cons_of_mem a hx)
    simp only [List.foldl_cons, ha]
    rw [show c * m + c * (1 - m) = c by ring]
    exact ih ht

theorem deltasOf_cons_cons (a b : ℚ) (t : List ℚ) :
    deltasOf (a :: b :: t) = (b - a) :: deltasOf (b :: t) := rfl

theorem deltasOf_pos {l : List ℚ} (h : List.Chain' (· < ·) l) :
    ∀ d ∈ deltasOf l, 0 < d := by
  induction l with
  | nil => intro d hd; simp [deltasOf] at hd
  | cons a t ih =>
    cases t with
    | nil => intro d hd; simp [deltasOf] at hd
    | cons b t' =>
      rw [deltasOf_cons_cons]
      rcases List.chain'_cons.mp h with ⟨hab, htail⟩
      intro d hd
      rcases List.mem_cons.mp hd with h1 | h2
      · subst h1; linarith
      · exact ih htail d h2

theorem deltasOf_neg {l : List ℚ} (h : List.Chain' (· > ·) l) :
    ∀ d ∈ deltasOf l, d < 0 := by
  induction l with
  | nil => intro d hd; simp [deltasOf] at hd
  | cons a t ih =>
    cases t with
    | nil => intro d hd; simp [deltasOf] at hd
    | cons b t' =>
      rw [deltasOf_cons_cons]
      rcases List.chain'_cons.mp h with ⟨hab, htail⟩
      intro d hd
      rcases List.mem_cons.mp hd with h1 | h2
      · subst h1; simp only [sub_neg]; exact hab
      · exact ih htail d h2

theorem length_deltasOf (l : List ℚ) : (deltasOf l).length = l.length - 1 := by
  simp [deltasOf]

theorem lastSlice_subset {α : Type} (n : ℕ) (xs : List α) : lastSlice n xs ⊆ xs :=
  List.drop_subset _ xs

theorem length_lastSlice {α : Type} (n : ℕ) (xs : List α) (h : n ≤ xs.length) :
    (lastSlice n xs).length = n := by
  simp [lastSlice]
  omega

theorem calculate_rsi_eq (prices : List ℚ) (period : ℕ)
    (h : ¬ prices.length < period + 1) :
    calculate_rsi prices period =
      if (lastSlice period (lossesOf prices)).sum / (period : ℚ) = 0 then some 100
      else some (pyRound 2 (100 - 100 / (1 +
        ((lastSlice period (gainsOf prices)).sum / (period : ℚ)) /
        ((lastSlice period (lossesOf prices)).sum / (period : ℚ))))) := by
  unfold calculate_rsi
  rw [if_neg h]

theorem lossesOf_nonneg (prices : List ℚ) : ∀ x ∈ lossesOf prices, 0 ≤ x := by
  intro x hx
  unfold lossesOf at hx
  rcases List.mem_map.mp hx with ⟨d, _, rfl⟩
  by_cases hd : d < 0 <;> simp [hd] <;> linarith

theorem gainsOf_nonneg (prices : List ℚ) : ∀ x ∈ gainsOf prices, 0 ≤ x := by
  intro x hx
  unfold gainsOf at hx
  rcases List.mem_map.mp hx with ⟨d, _, rfl⟩
  by_cases hd : 0 < d <;> simp [hd] <;> linarith

theorem except_bind_ok {α β : Type} (a : α) (f : α → Except String β) :
    (Except.ok a : Except String α) >>= f = f a := rfl

theorem except_bind_error {α β : Type} (e : String) (f : α → Except String β) :
    (Except.error e : Except String α) >>= f = Except.error e := rfl

theorem except_pure {α : Type} (a : α) :
    (pure a : Except String α) = Except.ok a := rfl

theorem negIdx_const {prices : List ℚ} {c : ℚ} (hconst : ∀ x ∈ prices, x = c)
    {k : ℕ} (hk : 1 ≤ k) (hlen : k ≤ prices.length) : negIdx prices k = c := by
  unfold negIdx
  rw [List.getD_eq_getElem?_getD, List.getElem?_eq_getElem (by omega),
    Option.getD_some]
  exact hconst _ (List.getElem_mem _)

theorem calc_return_const {prices : List ℚ} {c : ℚ} (k : ℕ)
    (hconst : ∀ x ∈ prices, x = c) (hc : c ≠ 0) (hk : 1 ≤ k) :
    calc_return prices k = .ok 0 := by
  by_cases hlen : prices.length ≤ k
  · simp only [calc_return]
    rw [if_pos hlen]
  · simp only [calc_return]
    rw [if_neg hlen, negIdx_const hconst hk (by omega),
      negIdx_const hconst (by norm_num) (by omega), sub_self]
    unfold pydiv
    rw [if_neg hc, except_bind_ok, zero_div, zero_mul]

theorem deltasOf_zero_of_const {l : List ℚ} {c : ℚ} (h : ∀ x ∈ l, x = c) :
    ∀ d ∈ deltasOf l, d = 0 := by
  induction l with
  | nil => intro d hd; simp [deltasOf] at hd
  | cons a t ih =>
    cases t with
    | nil => intro d hd; simp [deltasOf] at hd
    | cons b t' =>
      rw [deltasOf_cons_cons]
      intro d hd
      rcases List.mem_cons.mp hd with h1 | h2
      · subst h1
        rw [h a (by simp), h b (by simp)]
        ring
      · exact ih (fun x hx => h x (List.mem_cons_of_mem a hx)) d h2

theorem calculate_rsi_of_const {prices : List ℚ} {c : ℚ} (period : ℕ)
    (hconst : ∀ x ∈ prices, x = c) (hlen : ¬ prices.length < period + 1) :
    calculate_rsi prices period = some 100 := by
  rw [calculate_rsi_eq prices period hlen]
  have hz : (lastSlice period (lossesOf prices)).sum = 0 := by
    apply List.sum_eq_zero
    intro x hx
    have hx' := lastSlice_subset _ _ hx
    unfold lossesOf at hx'
    rcases List.mem_map.mp hx' with ⟨d, hd, rfl⟩
    have hd0 : d = 0 := deltasOf_zero_of_const hconst d hd
    simp [hd0]
  rw [if_pos (by rw [hz, zero_div])]

theorem variance_sample_const {l : List ℚ} {c : ℚ} (h : ∀ x ∈ l, x = c) :
    variance_sample l = 0 := by
  rcases eq_or_ne l [] with rfl | hne
  · simp [variance_sample]
  · unfold variance_sample
    rw [List.sum_eq_zero, zero_div]
    intro x hx
    rcases List.mem_map.mp hx with ⟨y, hy, rfl⟩
    rw [h y hy, mean_const h hne]
    ring

theorem calculate_sma_const {prices : List ℚ} {c : ℚ} {p : ℕ}
    (hconst : ∀ x ∈ prices, x = c) (hp : 1 ≤ p) (hlen : p ≤ prices.length) :
    calculate_sma prices p = some (pyRound 2 c) := by
  unfold calculate_sma
  rw [if_neg (by omega)]
  congr 1
  congr 1
  apply mean_const
  · intro x hx
    exact hconst x (lastSlice_subset p prices hx)
  · apply List.ne_nil_of_length_pos
    rw [length_lastSlice p prices hlen]
    omega

theorem calculate_ema_const {prices : List ℚ} {c : ℚ} {p : ℕ}
    (hconst : ∀ x ∈ prices, x = c) (hp : 1 ≤ p) (hlen : p ≤ prices.length) :
    calculate_ema prices p = some (pyRound 2 c) := by
  unfold calculate_ema
  rw [if_neg (by omega)]
  have hseed : mean (prices.take p) = c := by
    apply mean_const
    · intro x hx
      exact hconst x (List.mem_of_mem_take hx)
    · apply List.ne_nil_of_length_pos
      rw [List.length_take]
      omega
  show some (pyRound 2 ((prices.drop p).foldl
    (fun ema price => price * (2 / ((p:ℚ) + 1)) + ema * (1 - 2 / ((p:ℚ) + 1)))
    (mean (prices.take p)))) = some (pyRound 2 c)
  rw [hseed,
    foldl_ema_const (2 / ((p:ℚ) + 1)) c
      fun x hx => hconst x (List.mem_of_mem_drop hx)]

/-- C6: RSI is always in [0,100] when defined; a strictly increasing price
series gives RSI = 100; a strictly decreasing one gives RSI = 0; a zero
average loss over the trailing window gives RSI = 100; and fewer than
`period + 1` prices give the absent result `none`. -/
theorem calculate_rsi_range_and_extremes (prices : List ℚ) (period : ℕ) :
    (prices.length < period + 1 → calculate_rsi prices period = none) ∧
    (1 ≤ period → period + 1 ≤ prices.length →
      (∃ r, calculate_rsi prices period = some r ∧ 0 ≤ r ∧ r ≤ 100) ∧
      ((lastSlice period (lossesOf prices)).sum = 0 →
        calculate_rsi prices period = some 100) ∧
      (List.Chain' (· < ·) prices → calculate_rsi prices period = some 100) ∧
      (List.Chain' (· > ·) prices → calculate_rsi prices period = some 0)) := by
  constructor
  · intro h
    unfold calculate_rsi
    rw [if_pos h]
  · intro hp hlen
    have hnot : ¬ prices.length < period + 1 := by omega
    have hper : (0:ℚ) < (period : ℚ) := by exact_mod_cast hp
    have hlossS : 0 ≤ (lastSlice period (lossesOf prices)).sum :=
      List.sum_nonneg fun x hx =>
        lossesOf_nonneg prices x (lastSlice_subset _ _ hx)
    have hgainS : 0 ≤ (lastSlice period (gainsOf prices)).sum :=
      List.sum_nonneg fun x hx =>
        gainsOf_nonneg prices x (lastSlice_subset _ _ hx)
    have hzero_case : (lastSlice period (lossesOf prices)).sum = 0 →
        calculate_rsi prices period = some 100 := by
      intro hz0
      rw [calculate_rsi_eq prices period hnot, if_pos (by rw [hz0, zero_div])]
    refine ⟨?_, hzero_case, ?_, ?_⟩
    · by_cases hz : (lastSlice period (lossesOf prices)).sum / (period : ℚ) = 0
      · refine ⟨100, ?_, by norm_num, by norm_num⟩
        rw [calculate_rsi_eq prices period hnot, if_pos hz]
      · have hLpos : 0 < (lastSlice period (lossesOf prices)).sum / (period : ℚ) :=
          lt_of_le_of_ne (div_nonneg hlossS hper.le) (Ne.symm hz)
        have hrs : 0 ≤ ((lastSlice period (gainsOf prices)).sum / (period : ℚ)) /
            ((lastSlice period (lossesOf prices)).sum / (period : ℚ)) :=
          div_nonneg (div_nonneg hgainS hper.le) hLpos.le
        set rs := ((lastSlice period (gainsOf prices)).sum / (period : ℚ)) /
            ((lastSlice period (lossesOf prices)).sum / (period : ℚ)) with hrsdef
        have hx0 : 0 ≤ 100 - 100 / (1 + rs) := by
          have : 100 / (1 + rs) ≤ 100 := by
            apply div_le_self (by norm_num)
            linarith
          linarith
        have hx100 : 100 - 100 / (1 + rs) ≤ 100 := by
          have : 0 < 100 / (1 + rs) := by positivity
          linarith
        refine ⟨pyRound 2 (100 - 100 / (1 + rs)), ?_, pyRound_nonneg 2 hx0, ?_⟩
        · rw [calculate_rsi_eq prices period hnot, if_neg hz]
        · have h1 : pyRound 2 (100 - 100 / (1 + rs)) ≤ pyRound 2 100 :=
            pyRound_mono 2 hx100
          have h2 : pyRound 2 (100:ℚ) = 100 :=
            pyRound_eq_self (10000 : ℤ) (by norm_num)
          linarith
    · intro hchain
      apply hzero_case
      apply List.sum_eq_zero
      intro x hx
      have hx' := lastSlice_subset period (lossesOf prices) hx
      unfold lossesOf at hx'
      rcases List.mem_map.mp hx' with ⟨d, hd, rfl⟩
      have : 0 < d := deltasOf_pos hchain d hd
      simp [not_lt.mpr this.le, this.not_lt]
    · intro hchain
      have hg0 : (lastSlice period (gainsOf prices)).sum = 0 := by
        apply List.sum_eq_zero
        intro x hx
        have hx' := lastSlice_subset period (gainsOf prices) hx
        unfold gainsOf at hx'
        rcases List.mem_map.mp hx' with ⟨d, hd, rfl⟩
        have : d < 0 := deltasOf_neg hchain d hd
        simp [this.not_lt]
      have hlenloss : period ≤ (lossesOf prices).length := by
        unfold lossesOf
        rw [List.length_map, length_deltasOf]
        omega
      have hlpos : 0 < (lastSlice period (lossesOf prices)).sum := by
        apply List.sum_pos
        · intro x hx
          have hx' := lastSlice_subset period (lossesOf prices) hx
          unfold lossesOf at hx'
          rcases List.mem_map.mp hx' with ⟨d, hd, rfl⟩
          have hdneg : d < 0 := deltasOf_neg hchain d hd
          simp [hdneg]
        · apply List.ne_nil_of_length_pos
          rw [length_lastSlice period _ hlenloss]
          omega
      have hz : (lastSlice period (lossesOf prices)).sum / (period : ℚ) ≠ 0 :=
        ne_of_gt (div_pos hlpos hper)
      rw [calculate_rsi_eq prices period hnot, if_neg hz, hg0]
      norm_num [pyRound_zero]

/-- Witness for `calculate_rsi_range_and_extremes` at concrete inputs. -/
theorem calculate_rsi_range_and_extremes_witness :
    calculate_rsi [(1:ℚ), 2, 3] 2 = some 100 ∧
    calculate_rsi [(3:ℚ), 2, 1] 2 = some 0 ∧
    calculate_rsi [(1:ℚ), 2] 2 = none := by
  refine ⟨?_, ?_, ?_⟩
  · exact (((calculate_rsi_range_and_extremes [(1:ℚ), 2, 3] 2).2
      (by norm_num) (by norm_num)).2.2.1)
      (by norm_num [List.chain'_cons, List.chain'_singleton])
  · exact (((calculate_rsi_range_and_extremes [(3:ℚ), 2, 1] 2).2
      (by norm_num) (by norm_num)).2.2.2)
      (by norm_num [List.chain'_cons, List.chain'_singleton])
  · exact (calculate_rsi_range_and_extremes [(1:ℚ), 2] 2).1 (by norm_num)

/-- C9 counterexample: over the constant series `[0.123]` with period 1,
SMA and EMA both return `round(0.123, 2) = 0.12`, not the constant itself. -/
theorem sma_ema_const_counterexample :
    calculate_sma [(123/1000 : ℚ)] 1 = some (12/100) ∧
    calculate_ema [(123/1000 : ℚ)] 1 = some (12/100) ∧
    (12/100 : ℚ) ≠ 123/1000 := by
  refine ⟨?_, ?_, by norm_num⟩
  · norm_num [calculate_sma, pyRound, mean, lastSlice, round_eq]
  · norm_num [calculate_ema, pyRound, mean, lastSlice, round_eq,
      List.foldl_cons, List.foldl_nil]

/-- C9 (amended): over a constant price series, SMA and EMA both return the
constant rounded to 2 decimals, which equals the constant itself exactly when
`100 · c` is an integer. -/
theorem sma_ema_const_rounded (c : ℚ) (p : ℕ) (prices : List ℚ)
    (hp : 1 ≤ p) (hlen : p ≤ prices.length) (hconst : ∀ x ∈ prices, x = c) :
    calculate_sma prices p = some (pyRound 2 c) ∧
    calculate_ema prices p = some (pyRound 2 c) ∧
    (∀ k : ℤ, c * 100 = k → pyRound 2 c = c) := by
  refine ⟨calculate_sma_const hconst hp hlen, calculate_ema_const hconst hp hlen,
    fun k hk => pyRound_eq_self k (by linarith)⟩

/-- Witness for `sma_ema_const_rounded` over the constant series `[2, 2]`. -/
theorem sma_ema_const_rounded_witness :
    calculate_sma [(2:ℚ), 2] 2 = some (pyRound 2 2) ∧
    calculate_ema [(2:ℚ), 2] 2 = some (pyRound 2 2) ∧
    (∀ k : ℤ, (2:ℚ) * 100 = k → pyRound 2 2 = 2) :=
  sma_ema_const_rounded 2 2 [2, 2] (by norm_num) (by norm_num)
    (by decide)

/-- C10: for at least 26 prices, MACD returns the rounded values of
`m`, `0.8·m` and `0.2·m` where `m = EMA(12) − EMA(26)` (the unrounded MACD
line); the returned histogram and MACD line never have strictly opposite
signs, and the returned histogram is positive exactly when
`EMA(12) − EMA(26) ≥ 1/40` (the threshold at which `0.2·m` still rounds up
to a positive hundredth). -/
theorem calculate_macd_signal_relation (prices : List ℚ)
    (hlen : 26 ≤ prices.length) :
    ∃ ema_12 ema_26 : ℚ,
      calculate_ema prices 12 = some ema_12 ∧
      calculate_ema prices 26 = some ema_26 ∧
      calculate_macd prices = some
        ⟨pyRound 2 (ema_12 - ema_26), pyRound 2 ((8/10) * (ema_12 - ema_26)),
         pyRound 2 ((2/10) * (ema_12 - ema_26))⟩ ∧
      ¬ (0 < pyRound 2 ((2/10) * (ema_12 - ema_26)) ∧
         pyRound 2 (ema_12 - ema_26) < 0) ∧
      ¬ (pyRound 2 ((2/10) * (ema_12 - ema_26)) < 0 ∧
         0 < pyRound 2 (ema_12 - ema_26)) ∧
      (0 < pyRound 2 ((2/10) * (ema_12 - ema_26)) ↔ 1/40 ≤ ema_12 - ema_26) := by
  have h12 : ¬ prices.length < 12 := by omega
  have h26 : ¬ prices.length < 26 := by omega
  obtain ⟨e12, h12e⟩ : ∃ e, calculate_ema prices 12 = some e := by
    unfold calculate_ema
    rw [if_neg h12]
    exact ⟨_, rfl⟩
  obtain ⟨e26, h26e⟩ : ∃ e, calculate_ema prices 26 = some e := by
    unfold calculate_ema
    rw [if_neg h26]
    exact ⟨_, rfl⟩
  have hr8 : (e12 - e26) * (8/10) = (8/10) * (e12 - e26) := by ring
  have hr2 : e12 - e26 - (e12 - e26) * (8/10) = (2/10) * (e12 - e26) := by ring
  refine ⟨e12, e26, h12e, h26e, ?_, ?_, ?_, ?_⟩
  · unfold calculate_macd
    rw [if_neg h26, h12e, h26e]
    show (some (MACD.mk (pyRound 2 (e12 - e26))
      (pyRound 2 ((e12 - e26) * (8/10)))
      (pyRound 2 (e12 - e26 - (e12 - e26) * (8/10))))) = _
    rw [hr8]
    rw [show e12 - e26 - 8/10 * (e12 - e26) = (2:ℚ)/10 * (e12 - e26) by ring]
  · rintro ⟨hpos, hneg⟩
    rw [pyRound_pos_iff] at hpos
    rw [pyRound_neg_iff] at hneg
    rw [show ((2:ℚ)/10 * (e12 - e26)) * 10 ^ 2 = 20 * (e12 - e26) by ring] at hpos
    rw [show (e12 - e26) * (10:ℚ) ^ 2 = 100 * (e12 - e26) by ring] at hneg
    linarith
  · rintro ⟨hneg, hpos⟩
    rw [pyRound_neg_iff] at hneg
    rw [pyRound_pos_iff] at hpos
    rw [show ((2:ℚ)/10 * (e12 - e26)) * 10 ^ 2 = 20 * (e12 - e26) by ring] at hneg
    rw [show (e12 - e26) * (10:ℚ) ^ 2 = 100 * (e12 - e26) by ring] at hpos
    linarith
  · rw [pyRound_pos_iff,
      show ((2:ℚ)/10 * (e12 - e26)) * 10 ^ 2 = 20 * (e12 - e26) by ring]
    constructor <;> intro h <;> linarith

/-- Witness for `calculate_macd_signal_relation` on 26 constant prices. -/
theorem calculate_macd_signal_relation_witness :
    ∃ ema_12 ema_26 : ℚ,
      calculate_ema (List.replicate 26 (100:ℚ)) 12 = some ema_12 ∧
      calculate_ema (List.replicate 26 (100:ℚ)) 26 = some ema_26 ∧
      calculate_macd (List.replicate 26 (100:ℚ)) = some
        ⟨pyRound 2 (ema_12 - ema_26), pyRound 2 ((8/10) * (ema_12 - ema_26)),
         pyRound 2 ((2/10) * (ema_12 - ema_26))⟩ ∧
      ¬ (0 < pyRound 2 ((2/10) * (ema_12 - ema_26)) ∧
         pyRound 2 (ema_12 - ema_26) < 0) ∧
      ¬ (pyRound 2 ((2/10) * (ema_12 - ema_26)) < 0 ∧
         0 < pyRound 2 (ema_12 - ema_26)) ∧
      (0 < pyRound 2 ((2/10) * (ema_12 - ema_26)) ↔ 1/40 ≤ ema_12 - ema_26) :=
  calculate_macd_signal_relation (List.replicate 26 (100:ℚ)) (by simp)

/-- C1: the fusion policy of `_generate_signal`: agreement averages the two
confidences, adds 10 and caps at 95 with source `HYBRID_AGREEMENT`; otherwise
a model confidence strictly above 80 overrides signal and confidence with
source `ML_HIGH_CONFIDENCE`; otherwise the traditional signal and confidence
pass through unchanged with source `TRADITIONAL`. -/
theorem hybrid_fusion_policy (signal : String) (confidence : ℚ)
    (ml : MLPrediction) :
    (signal = ml.signal →
      hybrid_fusion signal confidence (some ml) =
        ⟨signal, min 95 ((confidence + ml.confidence) / 2 + 10),
         "HYBRID_AGREEMENT"⟩) ∧
    (signal ≠ ml.signal → 80 < ml.confidence →
      hybrid_fusion signal confidence (some ml) =
        ⟨ml.signal, ml.confidence, "ML_HIGH_CONFIDENCE"⟩) ∧
    (signal ≠ ml.signal → ml.confidence ≤ 80 →
      hybrid_fusion signal confidence (some ml) =
        ⟨signal, confidence, "TRADITIONAL"⟩) := by
  refine ⟨?_, ?_, ?_⟩
  · intro h
    simp [hybrid_fusion, h]
  · intro h hc
    simp [hybrid_fusion, h, hc]
  · intro h hc
    simp [hybrid_fusion, h, not_lt.mpr hc]

/-- Witness for `hybrid_fusion_policy`, exercising all three branches. -/
theorem hybrid_fusion_policy_witness :
    hybrid_fusion "BUY" 50 (some ⟨"BUY", 70⟩) =
      ⟨"BUY", min 95 ((50 + 70) / 2 + 10), "HYBRID_AGREEMENT"⟩ ∧
    hybrid_fusion "HOLD" 50 (some ⟨"BUY", 90⟩) =
      ⟨"BUY", 90, "ML_HIGH_CONFIDENCE"⟩ ∧
    hybrid_fusion "HOLD" 50 (some ⟨"BUY", 60⟩) =
      ⟨"HOLD", 50, "TRADITIONAL"⟩ :=
  ⟨(hybrid_fusion_policy "BUY" 50 ⟨"BUY", 70⟩).1 rfl,
   (hybrid_fusion_policy "HOLD" 50 ⟨"BUY", 90⟩).2.1 (by decide) (by norm_num),
   (hybrid_fusion_policy "HOLD" 50 ⟨"BUY", 60⟩).2.2 (by decide) (by norm_num)⟩

/-- C2 counterexample: with traditional confidence 60 and model confidence 70
on agreeing BUY signals, the fused result is
`⟨BUY, min(95, (60+70)/2+10), HYBRID_AGREEMENT⟩ = ⟨BUY, 75, HYBRID_AGREEMENT⟩`,
so the fused confidence is 75 and not the claimed capped value 95. -/
theorem hybrid_fusion_buy60_counterexample :
    hybrid_fusion "BUY" 60 (some ⟨"BUY", 70⟩) =
      ⟨"BUY", 75, "HYBRID_AGREEMENT"⟩ ∧
    (hybrid_fusion "BUY" 60 (some ⟨"BUY", 70⟩)).confidence = 75 ∧
    (hybrid_fusion "BUY" 60 (some ⟨"BUY", 70⟩)).confidence ≠ 95 := by
  refine ⟨?_, ?_, ?_⟩
  · simp [hybrid_fusion]
    norm_num
  · simp [hybrid_fusion]
    norm_num
  · simp [hybrid_fusion]
    norm_num

/-- C2 (amended): for agreeing BUY signals with model confidence 70 the fused
confidence is `min(95, (tc+70)/2+10)` with source `HYBRID_AGREEMENT`; the
literal instances are `tc = 60 → 75` (the 95 cap is not reached) and
`tc = 40 → 65`. -/
theorem hybrid_fusion_buy_model70 :
    (∀ tc : ℚ, hybrid_fusion "BUY" tc (some ⟨"BUY", 70⟩) =
      ⟨"BUY", min 95 ((tc + 70) / 2 + 10), "HYBRID_AGREEMENT"⟩) ∧
    hybrid_fusion "BUY" 60 (some ⟨"BUY", 70⟩) =
      ⟨"BUY", 75, "HYBRID_AGREEMENT"⟩ ∧
    hybrid_fusion "BUY" 40 (some ⟨"BUY", 70⟩) =
      ⟨"BUY", 65, "HYBRID_AGREEMENT"⟩ := by
  have h : ∀ tc : ℚ, hybrid_fusion "BUY" tc (some ⟨"BUY", 70⟩) =
      ⟨"BUY", min 95 ((tc + 70) / 2 + 10), "HYBRID_AGREEMENT"⟩ := by
    intro tc
    simp [hybrid_fusion]
  refine ⟨h, ?_, ?_⟩
  · rw [h 60]
    norm_num
  · rw [h 40]
    norm_num

/-- C3: with volume ratio 3.0 (strictly above 2.0) and all other volume
sub-terms neutral, the adjustment is `+1`, not the claimed `+2`: the
`ratio > 2.0 → +2` branch of `get_volume_signal_adjustment` is unreachable
because the `ratio > 1.5 → +1` branch is tested first. -/
theorem get_volume_signal_adjustment_ratio3 :
    get_volume_signal_adjustment ⟨0, 0, 3, "STABLE", 0, "NEUTRAL"⟩ "NEUTRAL" = 1 ∧
    (1 : ℤ) ≠ 2 := by
  constructor
  · norm_num [get_volume_signal_adjustment]
    decide
  · decide

/-- C7 counterexample: in the untrained state `predict` tags its soft-fail
result with `source = "ML_NOT_TRAINED"`, not `"NOT_TRAINED"`. -/
theorem predict_not_trained_counterexample :
    (predict none none []).signal = "HOLD" ∧
    (predict none none []).confidence = 50 ∧
    (predict none none []).probability = 1 / 2 ∧
    (predict none none []).source = "ML_NOT_TRAINED" ∧
    (predict none none []).source ≠ "NOT_TRAINED" := by
  refine ⟨rfl, rfl, rfl, rfl, by decide⟩

/-- C7 (amended): for every feature vector, when no artifact is in memory and
none can be loaded from storage, `predict` soft-fails with HOLD, confidence
50, probability 0.5 and source `"ML_NOT_TRAINED"` (plus an error message). -/
theorem predict_not_trained (features : List (String × ℚ)) :
    predict none none features =
      ⟨"HOLD", 50, 1 / 2, "ML_NOT_TRAINED", some "Model not trained yet"⟩ := rfl

/-- C5: below the documented minimum, each top-level operation returns its
typed insufficient-data result and nothing else: `analyze_symbol` on fewer
than 20 candles returns the error record (min_required 20, received = input
length), `extract_features` on fewer than 20 candles returns the empty
mapping, and `train` on fewer than 100 examples returns the
insufficient-training-data failure. -/
theorem insufficient_data_gates (candles : List Candle) (sqrtf : ℚ → ℚ)
    (training_data : List TrainingExample) :
    (candles.length < 20 →
      analyze_symbol candles = .insufficientData 20 candles.length) ∧
    (candles.length < 20 → extract_features sqrtf candles = .ok []) ∧
    (training_data.length < 100 →
      train training_data = .insufficientTrainingData training_data.length) := by
  refine ⟨?_, ?_, ?_⟩
  · intro h
    unfold analyze_symbol
    rw [if_pos (by simp [h])]
    by_cases he : candles.isEmpty
    · have hc : candles = [] := List.isEmpty_iff.mp he
      subst hc
      rfl
    · rw [if_neg he]
  · intro h
    unfold extract_features
    rw [if_pos (by simp [h])]
  · intro h
    unfold train
    rw [if_pos h]

/-- Witness for `insufficient_data_gates` on empty inputs. -/
theorem insufficient_data_gates_witness :
    analyze_symbol [] = .insufficientData 20 ([] : List Candle).length ∧
    extract_features (fun q => q) [] = .ok [] ∧
    train [] = .insufficientTrainingData ([] : List TrainingExample).length :=
  ⟨(insufficient_data_gates [] (fun q => q) []).1 (by norm_num),
   (insufficient_data_gates [] (fun q => q) []).2.1 (by norm_num),
   (insufficient_data_gates [] (fun q => q) []).2.2 (by norm_num)⟩

theorem label_from_features_zero_or_one (f : TrainFeatures) :
    label_from_features f = 0 ∨ label_from_features f = 1 := by
  unfold label_from_features
  split
  · right; rfl
  · left; rfl

/-- C8: any permutation (the final `random.shuffle`) of
`generate_synthetic_data` on `n` feature draws has exactly equal counts of
label-0 and label-1 examples, total length `2 × min(#label-1 generated,
#label-0 generated)`, and hence length at most `n`. -/
theorem generate_synthetic_data_balanced (draws : List TrainFeatures)
    (out : List TrainingExample)
    (hperm : out.Perm (generate_synthetic_data draws)) :
    out.countP (fun d => d.label == 1) = out.countP (fun d => d.label == 0) ∧
    out.length = 2 * min
      ((draws.map (fun f => TrainingExample.mk f (label_from_features f))).countP
        (fun d => d.label == 1))
      ((draws.map (fun f => TrainingExample.mk f (label_from_features f))).countP
        (fun d => d.label == 0)) ∧
    out.length ≤ draws.length := by
  set td := draws.map (fun f => TrainingExample.mk f (label_from_features f)) with htd
  set buy := td.filter (fun d => d.label == 1) with hbuy
  set notbuy := td.filter (fun d => d.label == 0) with hnotbuy
  set m := min buy.length notbuy.length with hm
  have hgen : generate_synthetic_data draws = buy.take m ++ notbuy.take m := rfl
  have hmb : m ≤ buy.length := min_le_left _ _
  have hmn : m ≤ notbuy.length := min_le_right _ _
  have hbuy1 : ∀ d ∈ buy, d.label = 1 := by
    intro d hd
    have := List.of_mem_filter hd
    simpa using this
  have hnot0 : ∀ d ∈ notbuy, d.label = 0 := by
    intro d hd
    have := List.of_mem_filter hd
    simpa using this
  have hc1 : (buy.take m ++ notbuy.take m).countP (fun d => d.label == 1) = m := by
    rw [List.countP_append]
    rw [List.countP_eq_length.mpr (fun d hd => by
      simp [hbuy1 d (List.mem_of_mem_take hd)])]
    rw [List.countP_eq_zero.mpr (fun d hd => by
      simp [hnot0 d (List.mem_of_mem_take hd)])]
    rw [List.length_take, min_eq_left hmb]
    omega
  have hc0 : (buy.take m ++ notbuy.take m).countP (fun d => d.label == 0) = m := by
    rw [List.countP_append]
    rw [List.countP_eq_zero.mpr (fun d hd => by
      simp [hbuy1 d (List.mem_of_mem_take hd)])]
    rw [List.countP_eq_length.mpr (fun d hd => by
      simp [hnot0 d (List.mem_of_mem_take hd)])]
    rw [List.length_take, min_eq_left hmn]
    omega
  have hlen : (buy.take m ++ notbuy.take m).length = 2 * m := by
    rw [List.length_append, List.length_take, List.length_take,
      min_eq_left hmb, min_eq_left hmn]
    omega
  have hbuy_len : buy.length = td.countP (fun d => d.label == 1) := by
    rw [hbuy, List.countP_eq_length_filter]
  have hnot_len : notbuy.length = td.countP (fun d => d.label == 0) := by
    rw [hnotbuy, List.countP_eq_length_filter]
  have hsum : td.countP (fun d => d.label == 1) +
      td.countP (fun d => d.label == 0) = td.length := by
    have := List.length_eq_countP_add_countP (l := td) (fun d => d.label == 1)
    have hcongr : td.countP (fun d => decide ¬ (d.label == 1) = true) =
        td.countP (fun d => d.label == 0) := by
      apply List.countP_congr
      intro d hd
      rw [htd] at hd
      rcases List.mem_map.mp hd with ⟨f, _, rfl⟩
      rcases label_from_features_zero_or_one f with h | h <;> simp [h]
    omega
  refine ⟨?_, ?_, ?_⟩
  · rw [hperm.countP_eq (fun d => d.label == 1),
      hperm.countP_eq (fun d => d.label == 0), hgen, hc1, hc0]
  · rw [hperm.length_eq, hgen, hlen, ← hbuy_len, ← hnot_len, ← hm]
  · rw [hperm.length_eq, hgen, hlen]
    have htdlen : td.length = draws.length := by
      rw [htd, List.length_map]
    omega

/-- Witness for `generate_synthetic_data_balanced` on one BUY-labelled and
one non-BUY-labelled draw (identity permutation). -/
theorem generate_synthetic_data_balanced_witness :
    (generate_synthetic_data
        [⟨20, 1, 1, 1, 2, 1, 0, 1, 0, 1, 1, 0⟩,
         ⟨50, -1, 0, 0, 1, 0, 0, 0, 0, 0, 0, 0⟩]).countP
      (fun d => d.label == 1) =
    (generate_synthetic_data
        [⟨20, 1, 1, 1, 2, 1, 0, 1, 0, 1, 1, 0⟩,
         ⟨50, -1, 0, 0, 1, 0, 0, 0, 0, 0, 0, 0⟩]).countP
      (fun d => d.label == 0) ∧
    (generate_synthetic_data
        [⟨20, 1, 1, 1, 2, 1, 0, 1, 0, 1, 1, 0⟩,
         ⟨50, -1, 0, 0, 1, 0, 0, 0, 0, 0, 0, 0⟩]).length = 2 * min
      (([⟨20, 1, 1, 1, 2, 1, 0, 1, 0, 1, 1, 0⟩,
         (⟨50, -1, 0, 0, 1, 0, 0, 0, 0, 0, 0, 0⟩ : TrainFeatures)].map
          (fun f => TrainingExample.mk f (label_from_features f))).countP
        (fun d => d.label == 1))
      (([⟨20, 1, 1, 1, 2, 1, 0, 1, 0, 1, 1, 0⟩,
         (⟨50, -1, 0, 0, 1, 0, 0, 0, 0, 0, 0, 0⟩ : TrainFeatures)].map
          (fun f => TrainingExample.mk f (label_from_features f))).countP
        (fun d => d.label == 0)) ∧
    (generate_synthetic_data
        [⟨20, 1, 1, 1, 2, 1, 0, 1, 0, 1, 1, 0⟩,
         ⟨50, -1, 0, 0, 1, 0, 0, 0, 0, 0, 0, 0⟩]).length ≤ 2 :=
  generate_synthetic_data_balanced
    [⟨20, 1, 1, 1, 2, 1, 0, 1, 0, 1, 1, 0⟩,
     ⟨50, -1, 0, 0, 1, 0, 0, 0, 0, 0, 0, 0⟩] _ (List.Perm.refl _)

/-- C4 (code-bug exhibit): on 20 identical candles the Bollinger band width
is zero, and `extract_features` raises `ZeroDivisionError` while computing
`bb_position` instead of returning the full finite feature mapping.  `sqrtf`
is only constrained at the one point where it is evaluated
(`math.sqrt 0 = 0`). -/
theorem extract_features_constant_zero_division (sqrtf : ℚ → ℚ)
    (h0 : sqrtf 0 = 0) :
    extract_features sqrtf (List.replicate 20 ⟨100, 100, 100, 1000⟩) =
      .error "ZeroDivisionError" := by
  have hclose : (List.replicate 20 (Candle.mk 100 100 100 1000)).map (·.close) =
      List.replicate 20 (100:ℚ) := by simp
  have hhigh : (List.replicate 20 (Candle.mk 100 100 100 1000)).map (·.high) =
      List.replicate 20 (100:ℚ) := by simp
  have hlow : (List.replicate 20 (Candle.mk 100 100 100 1000)).map (·.low) =
      List.replicate 20 (100:ℚ) := by simp
  have hconst : ∀ x ∈ List.replicate 20 (100:ℚ), x = 100 :=
    fun x hx => List.eq_of_mem_replicate hx
  have hcp : negIdx (List.replicate 20 (100:ℚ)) 1 = 100 :=
    negIdx_const hconst (by norm_num) (by simp)
  have hcr1 : calc_return (List.replicate 20 (100:ℚ)) 1 = .ok 0 :=
    calc_return_const 1 hconst (by norm_num) (by norm_num)
  have hcr5 : calc_return (List.replicate 20 (100:ℚ)) 5 = .ok 0 :=
    calc_return_const 5 hconst (by norm_num) (by norm_num)
  have hcr10 : calc_return (List.replicate 20 (100:ℚ)) 10 = .ok 0 :=
    calc_return_const 10 hconst (by norm_num) (by norm_num)
  have hcr20 : calc_return (List.replicate 20 (100:ℚ)) 20 = .ok 0 :=
    calc_return_const 20 hconst (by norm_num) (by norm_num)
  have hrsi14 : calculate_rsi (List.replicate 20 (100:ℚ)) 14 = some 100 :=
    calculate_rsi_of_const 14 hconst (by simp)
  have hrsi7 : calculate_rsi (List.replicate 20 (100:ℚ)) 7 = some 100 :=
    calculate_rsi_of_const 7 hconst (by simp)
  have hsma20 : calculate_sma (List.replicate 20 (100:ℚ)) 20 = some 100 := by
    rw [calculate_sma_const hconst (by norm_num) (by simp),
      pyRound_eq_self (d := 2) (x := 100) (10000:ℤ) (by norm_num)]
  have hsma50 : calculate_sma (List.replicate 20 (100:ℚ)) 50 = none := by
    unfold calculate_sma
    rw [if_pos (by simp)]
  have hsma200 : calculate_sma (List.replicate 20 (100:ℚ)) 200 = none := by
    unfold calculate_sma
    rw [if_pos (by simp)]
  have hmacd : calculate_macd (List.replicate 20 (100:ℚ)) = none := by
    unfold calculate_macd
    rw [if_pos (by simp)]
  have hmean : mean (lastSlice 20 (List.replicate 20 (100:ℚ))) = 100 := by
    apply mean_const (fun x hx => hconst x (lastSlice_subset _ _ hx))
    apply List.ne_nil_of_length_pos
    rw [length_lastSlice _ _ (by simp)]
    omega
  have hvar : variance_sample (lastSlice 20 (List.replicate 20 (100:ℚ))) = 0 :=
    variance_sample_const fun x hx => hconst x (lastSlice_subset _ _ hx)
  have hbb : calculate_bollinger_bands sqrtf (List.replicate 20 (100:ℚ)) 20 2 =
      some ⟨100, 100, 100⟩ := by
    simp only [calculate_bollinger_bands, hvar, h0, hmean, List.length_replicate]
    rw [if_neg (by norm_num)]
    norm_num
    rw [pyRound_eq_self (d := 2) (x := 100) (10000:ℤ) (by norm_num)]
  have htr : truthy (some (100:ℚ)) = true := by norm_num [truthy]
  have htrn : truthy (none : Option ℚ) = false := rfl
  have hpd : pydiv (100:ℚ) 100 = .ok 1 := by norm_num [pydiv]
  have hpd0 : pydiv (0:ℚ) 100 = .ok 0 := by norm_num [pydiv]
  have hpdz : pydiv (0:ℚ) 0 = .error "ZeroDivisionError" := by
    norm_num [pydiv]
  simp only [extract_features, hclose, hhigh, hlow, hcp, hcr1, hcr5, hcr10,
    hcr20, hrsi14, hrsi7, hsma20, hsma50, hsma200, hmacd, hbb, htr, htrn,
    Option.getD_some, sub_self, hpd, hpd0, hpdz, except_bind_ok,
    except_bind_error, except_pure, List.length_replicate]
  norm_num [pydiv]
  simp only [except_bind_ok]

/-- Witness for `extract_features_constant_zero_division` with the square
root instantiated at the only point used. -/
theorem extract_features_constant_zero_division_witness :
    (fun _ : ℚ => (0:ℚ)) 0 = 0 ∧
    extract_features (fun _ : ℚ => (0:ℚ))
      (List.replicate 20 ⟨100, 100, 100, 1000⟩) =
      .error "ZeroDivisionError" :=
  ⟨rfl, extract_features_constant_zero_division (fun _ => 0) rfl⟩
